import Mathlib

/-!
Shallow embedding of `skelm/large_elm.py` (`LargeELMRegressor`): batch-size
selection, the fit-time schema checks and state updates, the wait/persist
synchronization trace of the accumulation loop, the per-row design-matrix
construction shared by `fit` and both `predict` modes, the HH/HY accumulation
loop, and the padding / regularized-solve stage. Matrices are taken over `ℚ`
(exact arithmetic standing in for floating point).
-/

namespace LargeELM

/-- Batch-size selection at the top of `fit` (lines 114-117):
`self.bsize_ = self.batch_size; if self.bsize_ is None: self.bsize_ =
n_samples if n_samples < 10*1000 else 2000`. -/
def selectBsize (batch_size : Option Nat) (n_samples : Nat) : Nat :=
  match batch_size with
  | some b => b
  | none => if n_samples < 10 * 1000 then n_samples else 2000

/-- Shapes of one (input, target) shard pair: row count, feature count and
output count of the two files. -/
structure ShardShape where
  rows : Nat
  nFeatures : Nat
  nOutputs : Nat
deriving DecidableEq

/-- The attributes of a `LargeELMRegressor` instance that the fit-time control
flow reads and writes: the `batch_size` configuration, and the state attributes
that may or may not yet exist on the Python object (`n_features_`,
`n_outputs_`, `bsize_`, presence of `hidden_layers_`, `is_fitted_`). -/
structure ModelState where
  batch_size : Option Nat
  nFeatures? : Option Nat := none
  nOutputs? : Option Nat := none
  bsize? : Option Nat := none
  hasHiddenLayers : Bool := false
  isFitted : Bool := false
deriving DecidableEq

/-- Message of the `ValueError` raised at `fit` line 108. -/
def inputShapeError : String :=
  "Shape of input is different from what was seen in fit"

/-- Message of the `ValueError` raised at `fit` line 112. -/
def outputShapeError : String :=
  "Shape of outputs is different from what was seen in fit"

/-- Message standing for the `IndexError` on `X[0]` for an empty file list. -/
def emptyListError : String := "list index out of range"

/-- The schema-checking and state-updating control flow of `fit`
(lines 102-137), at the level of shard shapes. Returns the model state after
the call together with the error raised, if any; the two shape checks (lines
107-112) run before any attribute is written, `bsize_` is assigned on every
call (line 115), and `n_features_`/`n_outputs_`/`hidden_layers_` are written
only in the one-time initialization block (lines 120-136). The accumulation
loop that follows performs no schema check and the remaining shards cannot
raise the shape-mismatch errors, so only the head shard's shapes matter here;
at the end `is_fitted_` is set (line 210). -/
def fitShapes (m : ModelState) (shards : List ShardShape) :
    ModelState × Option String :=
  match shards with
  | [] => (m, some emptyListError)
  | s0 :: _ =>
    if (m.nFeatures?.map (· != s0.nFeatures)).getD false then
      (m, some inputShapeError)
    else if (m.nOutputs?.map (· != s0.nOutputs)).getD false then
      (m, some outputShapeError)
    else
      let m1 := { m with bsize? := some (selectBsize m.batch_size s0.rows) }
      let m2 :=
        if m1.hasHiddenLayers then m1
        else { m1 with nFeatures? := some s0.nFeatures,
                       nOutputs? := some s0.nOutputs,
                       hasHiddenLayers := true }
      ({ m2 with isFitted := true }, none)

/-- The two synchronization primitives used by the fit loop. -/
inductive SyncOp
  | wait
  | persist
deriving DecidableEq

/-- The guard `sync_every is not None and i % sync_every == 0` of `fit`
lines 172 and 176. -/
def syncDue (sync_every : Option Nat) (i : Nat) : Bool :=
  match sync_every with
  | some s => i % s == 0
  | none => false

/-- The wait/persist operations performed while processing shard `i` of the
fit loop (lines 166-177): the `wait` of lines 172-173 sits inside the `else`
branch, so it runs only when this is not the first shard; the `persist` of
lines 176-177 runs on any shard whose index passes the guard. -/
def shardSyncOps (sync_every : Option Nat) (i : Nat) : List SyncOp :=
  (if i != 0 && syncDue sync_every i then [SyncOp.wait] else [])
    ++ (if syncDue sync_every i then [SyncOp.persist] else [])

/-- All wait/persist operations of one `fit` call over `k` shards, in order:
the per-shard operations of the loop followed by the final `wait` of lines
180-181 (performed whenever `sync_every` is not `None`). -/
def fitSyncOps (sync_every : Option Nat) (k : Nat) : List SyncOp :=
  ((List.range k).map (shardSyncOps sync_every)).flatten
    ++ (if sync_every.isSome then [SyncOp.wait] else [])

/-- The kind tag of a hidden layer: the loops of `fit` and `predict` branch
only on whether `hl.hidden_layer_ == HiddenLayerType.PAIRWISE`, so every
non-pairwise kind is collapsed into `linearProjection`. -/
inductive HiddenLayerKind
  | pairwise
  | linearProjection
deriving DecidableEq

/-- One fitted hidden layer as consumed by `fit`/`predict`: its kind tag, its
projection components `W` (rows of `hl.projection_.components_`; reference
points for a pairwise layer), its pairwise metric and its nonlinearity
`ufunc_`. `nf` is the raw feature count, `nh` the layer's output width. -/
structure HiddenLayer (nf : Nat) where
  nh : Nat
  kind : HiddenLayerKind
  W : Fin nh → Fin nf → ℚ
  metric : (Fin nf → ℚ) → (Fin nf → ℚ) → ℚ
  ufunc : ℚ → ℚ

/-- The hidden-layer block `H0` of the design matrix, for one input row
(`fit` lines 151-163, identically `predict` lines 246-258): a pairwise layer
yields the pairwise distances from the row to the layer's reference points
(`pairwise_distances(X, W, metric=...)`), any other layer yields the
nonlinearity applied to `X·Wᵀ` (`hl.ufunc_(da.dot(X_dask, W.transpose()))`). -/
def hiddenBlockRow (hl : HiddenLayer nf) (x : Fin nf → ℚ) : List ℚ :=
  match hl.kind with
  | HiddenLayerKind.pairwise =>
      (List.finRange hl.nh).map fun j => hl.metric x (hl.W j)
  | HiddenLayerKind.linearProjection =>
      (List.finRange hl.nh).map fun j => hl.ufunc (∑ i, x i * hl.W j i)

/-- The configuration a fitted model carries into design-matrix construction:
the `include_original_features` flag and the list of fitted hidden layers. -/
structure ELMConfig (nf : Nat) where
  include_original_features : Bool
  hidden_layers : List (HiddenLayer nf)

/-- Per-row image of the `H_list` blocks built in `fit` lines 147-163:
`H_list` starts as `[da.ones((n, 1))]`, appends `X_dask` when
`include_original_features` is set, and the layer loop appends one block per
hidden layer in order (a left fold of `H_list.append(H0)`). -/
def hListRow (cfg : ELMConfig nf) (x : Fin nf → ℚ) : List (List ℚ) :=
  cfg.hidden_layers.foldl (fun acc hl => acc ++ [hiddenBlockRow hl x])
    (if cfg.include_original_features then
      [[1], (List.finRange nf).map x]
    else [[1]])

/-- One row of the design matrix `H = da.concatenate(H_list, axis=1)`
(`fit` line 165, `predict` line 260); rechunking does not change entries. -/
def designRow (cfg : ELMConfig nf) (x : Fin nf → ℚ) : List ℚ :=
  (hListRow cfg x).flatten

/-- Modelled from the spec: the hidden layer's `transform` method, defined in
the repository's hidden-layer module which is not present under `src/`, called
by the array-mode predict path (line 271). Per the spec, both predict modes
"use ... identical hidden-layer application rules": a pairwise layer computes
pairwise distances from the input rows to its reference points, any other
layer applies its nonlinearity to `X·Wᵀ`. Written here for one row. -/
def transformRow (hl : HiddenLayer nf) (x : Fin nf → ℚ) : List ℚ :=
  match hl.kind with
  | HiddenLayerKind.pairwise =>
      (List.finRange hl.nh).map fun j => hl.metric x (hl.W j)
  | HiddenLayerKind.linearProjection =>
      (List.finRange hl.nh).map fun j => hl.ufunc (∑ i, x i * hl.W j i)

/-- One row of the array-mode design matrix (`predict` lines 268-271):
`H = [np.ones((n,1))]`, then `H.append(X)` when configured, then
`H.extend([hl.transform(X) for hl in self.hidden_layers_])`, finally
`np.hstack(H)`. -/
def designRowArray (cfg : ELMConfig nf) (x : Fin nf → ℚ) : List ℚ :=
  ([[1]]
    ++ (if cfg.include_original_features then [(List.finRange nf).map x] else [])
    ++ cfg.hidden_layers.map (fun hl => transformRow hl x)).flatten

/-- Row-level matrix product with the weight matrix `B` (given by its rows,
one per design-matrix column): entry `o` of `H·B` for one design row
(`da.dot(H_dask, self.B)` line 261, `np.hstack(H) @ self.B.compute()`
line 273). -/
def applyWeights (B : List (Fin mo → ℚ)) (hrow : List ℚ) : Fin mo → ℚ :=
  fun o => (List.zipWith (fun h b => h * b o) hrow B).sum

/-- The part of a fitted `LargeELMRegressor` that `predict` consumes: the
design-matrix configuration, the weight matrix `B` (by rows) and the
`is_fitted_` flag. -/
structure FittedELM (nf mo : Nat) where
  cfg : ELMConfig nf
  B : List (Fin mo → ℚ)
  is_fitted : Bool

/-- The two input modes of `predict`: a list of file shards (each shard a list
of rows) or one in-memory array (a list of rows). -/
inductive PredictInput (nf : Nat)
  | shards (shardList : List (List (Fin nf → ℚ)))
  | array (X : List (Fin nf → ℚ))

/-- Message of the scikit-learn `NotFittedError` raised by `check_is_fitted`. -/
def notFittedError : String :=
  "This LargeELMRegressor instance is not fitted yet"

/-- The whole of `predict` (lines 213-273) at row level: `check_is_fitted`
runs first, before the input-type branch; shard mode builds each shard's
design matrix, multiplies by `B` and concatenates along rows (lines 234-264);
array mode builds one design matrix via `transform` and multiplies by the
materialized `B` (lines 266-273). -/
def predictELM (model : FittedELM nf mo) (inp : PredictInput nf) :
    Except String (List (Fin mo → ℚ)) :=
  if model.is_fitted then
    match inp with
    | PredictInput.shards shardList =>
        Except.ok
          ((shardList.map fun s =>
            s.map fun x => applyWeights model.B (designRow model.cfg x)).flatten)
    | PredictInput.array X =>
        Except.ok (X.map fun x => applyWeights model.B (designRowArray model.cfg x))
  else
    Except.error notFittedError

/-- One processed shard of the fit loop, after its design matrix has been
built and rechunked: the design matrix `H` and the target matrix `Y` read
from the shard's files. `w` is the design-matrix width and `mo` the output
count, shared by all shards of one fit call; the row count is per shard. -/
structure FitShard (w mo : Nat) where
  rows : Nat
  H : Matrix (Fin rows) (Fin w) ℚ
  Y : Matrix (Fin rows) (Fin mo) ℚ

/-- The contribution `Hᵗ·H` of one shard (`da.dot(H_dask.transpose(), H_dask)`). -/
def shardHH (s : FitShard w mo) : Matrix (Fin w) (Fin w) ℚ :=
  s.H.transpose * s.H

/-- The contribution `Hᵗ·Y` of one shard (`da.dot(H_dask.transpose(), Y_dask)`). -/
def shardHY (s : FitShard w mo) : Matrix (Fin w) (Fin mo) ℚ :=
  s.H.transpose * s.Y

/-- One iteration of the accumulation loop of `fit` (lines 166-171): when the
accumulators are still `None` the shard initializes them with its own
contributions, otherwise it adds its contributions (`HH += ...`, `HY += ...`). -/
def accumStep (acc : Option (Matrix (Fin w) (Fin w) ℚ × Matrix (Fin w) (Fin mo) ℚ))
    (s : FitShard w mo) :
    Option (Matrix (Fin w) (Fin w) ℚ × Matrix (Fin w) (Fin mo) ℚ) :=
  match acc with
  | none => some (shardHH s, shardHY s)
  | some (hh, hy) => some (hh + shardHH s, hy + shardHY s)

/-- The accumulation loop of `fit` (lines 139-171): `HH` and `HY` start as
`None` and each shard is folded in by `accumStep`; the `wait` and `persist`
calls do not change the accumulated values. -/
def accumLoop (shards : List (FitShard w mo)) :
    Option (Matrix (Fin w) (Fin w) ℚ × Matrix (Fin w) (Fin mo) ℚ) :=
  shards.foldl accumStep none

/-- Zero-padding of `HH` (`fit` lines 188-192): `da.block([[HH, P01], [P10,
P11]])` with all padding blocks zero, indexed here by `Fin d ⊕ Fin p`. -/
def padHH (HH : Matrix (Fin d) (Fin d) ℚ) (p : Nat) :
    Matrix (Fin d ⊕ Fin p) (Fin d ⊕ Fin p) ℚ :=
  Matrix.fromBlocks HH 0 0 0

/-- Zero-padding of `HY` (`fit` lines 194-196): `da.block([[HY], [P1]])` with
the padding block zero. -/
def padHY (HY : Matrix (Fin d) (Fin mo) ℚ) (p : Nat) :
    Matrix (Fin d ⊕ Fin p) (Fin mo) ℚ :=
  Matrix.fromRows HY 0

/-- The padding amount computed at `fit` lines 185-187: `bsize_ - (n_features
% bsize_)` when `n_features > bsize_` and `n_features % bsize_ > 0`, else 0. -/
def paddingAmount (nFeatures bsize : Nat) : Nat :=
  if bsize < nFeatures && nFeatures % bsize != 0 then
    bsize - nFeatures % bsize
  else 0

/-- The regularized system matrix of `fit` line 199:
`HH + self.alpha * da.eye(...)` (rechunking does not change entries). -/
def regularized [Fintype n] [DecidableEq n] (HH : Matrix n n ℚ) (alpha : ℚ) :
    Matrix n n ℚ :=
  HH + alpha • (1 : Matrix n n ℚ)

/-- The exact solution computed by `da.linalg.solve(HH, HY)` (line 202),
written with the explicit determinant/adjugate formula so that it is
executable; whenever the system matrix is nonsingular this equals
`HH⁻¹ * HY`, the unique solution of the linear system. -/
def solveSys [Fintype n] [DecidableEq n] (A : Matrix n n ℚ)
    (Y : Matrix n mo ℚ) : Matrix n mo ℚ :=
  A.det⁻¹ • (A.adjugate * Y)

/-- The truncation `B = B[:n_features]` of `fit` line 204: keep the rows
indexed by the original (unpadded) dimension. -/
def truncateRows (B : Matrix (Fin d ⊕ Fin p) (Fin mo) ℚ) :
    Matrix (Fin d) (Fin mo) ℚ :=
  Matrix.of fun i j => B (Sum.inl i) j

/-- C4 counterexample: with no explicit batch size and a first shard of 5000
rows, `fit` sets the batch size to 5000 — not `min(5000, 2000) = 2000` — so
the default batch size can exceed 2000. -/
theorem selectBsize_not_min_at_5000 :
    selectBsize none 5000 ≠ min 5000 2000 ∧ ¬ selectBsize none 5000 ≤ 2000 := by
  decide

/-- C4 (amended): when no explicit batch size is configured, `fit` sets the
batch size from shard 0's row count as the row count itself if it is below
10,000 and as 2000 otherwise; in particular the default batch size never
reaches 10,000 (but it can exceed 2000). -/
theorem selectBsize_default_rule (n : Nat) :
    (selectBsize none n = if n < 10 * 1000 then n else 2000)
      ∧ selectBsize none n < 10 * 1000 := by
  refine ⟨rfl, ?_⟩
  simp only [selectBsize]
  split <;> omega

/-- C5 counterexample: a model with automatic batch sizing fitted on a
5-row shard stores batch size 5, and a second `fit` call on the same model
with a 7-row shard overwrites it with 7 — the batch size fixed at first fit
does not survive the second call. -/
theorem bsize_changes_on_refit :
    (fitShapes { batch_size := none } [⟨5, 2, 1⟩]).1.bsize? = some 5
    ∧ (fitShapes (fitShapes { batch_size := none } [⟨5, 2, 1⟩]).1
        [⟨7, 2, 1⟩]).1.bsize? = some 7
    ∧ (fitShapes (fitShapes { batch_size := none } [⟨5, 2, 1⟩]).1
        [⟨7, 2, 1⟩]).1.bsize?
      ≠ (fitShapes { batch_size := none } [⟨5, 2, 1⟩]).1.bsize? := by
  decide

/-- C5 (amended): `fit` recomputes `bsize_` on every call from the
configuration and the current call's first shard; hence with an explicitly
configured batch size the stored value is the same after every fit call,
while automatic sizing can change it on a later fit. -/
theorem fitShapes_recomputes_bsize (m : ModelState) (s0 : ShardShape)
    (rest : List ShardShape) (hok : (fitShapes m (s0 :: rest)).2 = none) :
    (fitShapes m (s0 :: rest)).1.bsize? = some (selectBsize m.batch_size s0.rows)
    ∧ ∀ bcfg, m.batch_size = some bcfg →
        (fitShapes m (s0 :: rest)).1.bsize? = some bcfg := by
  by_cases h1 : (m.nFeatures?.map (· != s0.nFeatures)).getD false = true
  · exact absurd hok (by simp [fitShapes, h1])
  · by_cases h2 : (m.nOutputs?.map (· != s0.nOutputs)).getD false = true
    · exact absurd hok (by simp [fitShapes, h1, h2])
    · constructor
      · by_cases h3 : m.hasHiddenLayers <;> simp [fitShapes, h1, h2, h3]
      · intro bcfg hbcfg
        by_cases h3 : m.hasHiddenLayers <;>
          simp [fitShapes, h1, h2, h3, selectBsize, hbcfg]

/-- Witness for the amended C5 theorem at a concrete fitted model with an
explicitly configured batch size. -/
theorem fitShapes_recomputes_bsize_witness :
    ((fitShapes
        { batch_size := some 30, nFeatures? := some 2, nOutputs? := some 1,
          bsize? := some 30, hasHiddenLayers := true, isFitted := true }
        [⟨500, 2, 1⟩]).2 = none)
    ∧ (fitShapes
        { batch_size := some 30, nFeatures? := some 2, nOutputs? := some 1,
          bsize? := some 30, hasHiddenLayers := true, isFitted := true }
        [⟨500, 2, 1⟩]).1.bsize?
      = some (selectBsize (some 30) 500) :=
  ⟨by decide, (fitShapes_recomputes_bsize _ _ _ (by decide)).1⟩

/-- C6: calling `fit` again with a first shard whose feature count or output
count differs from the recorded `n_features_`/`n_outputs_` raises one of the
two shape-mismatch errors, and the model state at the raise — in particular
the recorded feature and output counts — is unchanged. -/
theorem refit_shape_mismatch_guard (m : ModelState) (f o : Nat)
    (hf : m.nFeatures? = some f) (ho : m.nOutputs? = some o)
    (s0 : ShardShape) (rest : List ShardShape)
    (hmm : s0.nFeatures ≠ f ∨ s0.nOutputs ≠ o) :
    ((fitShapes m (s0 :: rest)).2 = some inputShapeError
      ∨ (fitShapes m (s0 :: rest)).2 = some outputShapeError)
    ∧ (fitShapes m (s0 :: rest)).1 = m := by
  rcases Classical.em (s0.nFeatures = f) with h1 | h1
  · have h2 : s0.nOutputs ≠ o := by
      rcases hmm with h | h
      · exact absurd h1 h
      · exact h
    have h2' : o ≠ s0.nOutputs := Ne.symm h2
    refine ⟨Or.inr ?_, ?_⟩ <;> simp [fitShapes, hf, ho, h1, h2']
  · have h1' : f ≠ s0.nFeatures := Ne.symm h1
    refine ⟨Or.inl ?_, ?_⟩ <;> simp [fitShapes, hf, h1']

/-- Witness for the C6 theorem: refitting a model that recorded 2 features
and 1 output on a shard with 4 features raises and leaves the state alone. -/
theorem refit_shape_mismatch_guard_witness :
    (({ batch_size := none, nFeatures? := some 2, nOutputs? := some 1,
        bsize? := some 5, hasHiddenLayers := true, isFitted := true }
          : ModelState).nFeatures? = some 2
      ∧ ((4 : Nat) ≠ 2 ∨ (1 : Nat) ≠ 1))
    ∧ (((fitShapes
          { batch_size := none, nFeatures? := some 2, nOutputs? := some 1,
            bsize? := some 5, hasHiddenLayers := true, isFitted := true }
          [⟨9, 4, 1⟩]).2 = some inputShapeError
        ∨ (fitShapes
          { batch_size := none, nFeatures? := some 2, nOutputs? := some 1,
            bsize? := some 5, hasHiddenLayers := true, isFitted := true }
          [⟨9, 4, 1⟩]).2 = some outputShapeError)
      ∧ (fitShapes
          { batch_size := none, nFeatures? := some 2, nOutputs? := some 1,
            bsize? := some 5, hasHiddenLayers := true, isFitted := true }
          [⟨9, 4, 1⟩]).1
        = { batch_size := none, nFeatures? := some 2, nOutputs? := some 1,
            bsize? := some 5, hasHiddenLayers := true, isFitted := true }) :=
  ⟨⟨rfl, Or.inl (by decide)⟩,
   refit_shape_mismatch_guard _ 2 1 rfl rfl _ _ (Or.inl (by decide))⟩

/-- C10: within one `fit` call only the first shard's shapes are checked
against the recorded schema: with a matching first shard the call raises no
error even when a later shard's feature or output count disagrees with the
recorded schema, and the call's outcome is the same as if the later shards
were absent. -/
theorem fit_checks_only_first_shard (m : ModelState) (f o : Nat)
    (hf : m.nFeatures? = some f) (ho : m.nOutputs? = some o)
    (s0 : ShardShape) (h0f : s0.nFeatures = f) (h0o : s0.nOutputs = o)
    (rest : List ShardShape) (s : ShardShape) (hs : s ∈ rest)
    (hmm : s.nFeatures ≠ f ∨ s.nOutputs ≠ o) :
    (fitShapes m (s0 :: rest)).2 = none
    ∧ fitShapes m (s0 :: rest) = fitShapes m [s0] := by
  refine ⟨?_, rfl⟩
  simp [fitShapes, hf, ho, h0f, h0o]

/-- Witness for the C10 theorem: the second shard has 4 features against a
recorded schema of 2, yet the fit call raises nothing. -/
theorem fit_checks_only_first_shard_witness :
    (({ batch_size := none, nFeatures? := some 2, nOutputs? := some 1,
        bsize? := some 5, hasHiddenLayers := true, isFitted := true }
          : ModelState).nFeatures? = some 2
      ∧ (⟨9, 4, 1⟩ : ShardShape) ∈ [(⟨9, 4, 1⟩ : ShardShape)]
      ∧ ((4 : Nat) ≠ 2 ∨ (1 : Nat) ≠ 1))
    ∧ (fitShapes
        { batch_size := none, nFeatures? := some 2, nOutputs? := some 1,
          bsize? := some 5, hasHiddenLayers := true, isFitted := true }
        [⟨6, 2, 1⟩, ⟨9, 4, 1⟩]).2 = none :=
  ⟨⟨rfl, List.mem_singleton_self _, Or.inl (by decide)⟩,
   (fit_checks_only_first_shard _ 2 1 rfl rfl _ rfl rfl _ _
     (List.mem_singleton_self _) (Or.inl (by decide))).1⟩

/-- C7: `predict` raises the not-fitted error on any model whose fit has not
completed successfully, whichever input mode is used. -/
theorem predict_requires_fitted (model : FittedELM nf mo)
    (h : model.is_fitted = false) (inp : PredictInput nf) :
    predictELM model inp = Except.error notFittedError := by
  simp [predictELM, h]

/-- Witness for the C7 theorem on a concrete unfitted model, array mode. -/
theorem predict_requires_fitted_witness :
    ((⟨⟨true, []⟩, [], false⟩ : FittedELM 1 1).is_fitted = false)
    ∧ predictELM (⟨⟨true, []⟩, [], false⟩ : FittedELM 1 1)
        (PredictInput.array []) = Except.error notFittedError :=
  ⟨rfl, predict_requires_fitted _ rfl _⟩

/-- C9 counterexample: shard index 0 is a multiple of `sync_every = 10`, yet
the loop performs only the `persist` there — the `wait` of lines 172-173 is
in the not-first-shard branch, so the synchronization is not performed twice
at every multiple of `sync_every`. -/
theorem sync_not_twice_at_zero :
    0 % 10 = 0
    ∧ shardSyncOps (some 10) 0 = [SyncOp.persist]
    ∧ shardSyncOps (some 10) 0 ≠ [SyncOp.wait, SyncOp.persist] := by
  decide

/-- C9 (amended): with `sync_every` an integer, at every nonzero shard index
that is a multiple of `sync_every` the synchronization is performed twice —
a wait on the just-added contribution then a persist of the new accumulator
state — while at shard index 0 (also a multiple) only the persist is
performed; with `sync_every = None` no wait or persist happens during the
loop nor after it. -/
theorem shardSyncOps_rule (s i k : Nat) (hi : 0 < i) (hmul : i % s = 0) :
    shardSyncOps (some s) i = [SyncOp.wait, SyncOp.persist]
    ∧ shardSyncOps (some s) 0 = [SyncOp.persist]
    ∧ fitSyncOps none k = [] := by
  refine ⟨?_, ?_, ?_⟩
  · have h1 : (i != 0) = true := by
      simp [Nat.pos_iff_ne_zero.mp hi]
    have h2 : syncDue (some s) i = true := by
      simp [syncDue, hmul]
    simp [shardSyncOps, h1, h2]
  · simp [shardSyncOps, syncDue]
  · simp [fitSyncOps, shardSyncOps, syncDue]

/-- Witness for the amended C9 theorem at `sync_every = 2`, shard index 4. -/
theorem shardSyncOps_rule_witness :
    (0 < 4 ∧ 4 % 2 = 0)
    ∧ (shardSyncOps (some 2) 4 = [SyncOp.wait, SyncOp.persist]
      ∧ shardSyncOps (some 2) 0 = [SyncOp.persist]
      ∧ fitSyncOps none 3 = []) :=
  ⟨⟨by decide, by decide⟩, shardSyncOps_rule 2 4 3 (by decide) (by decide)⟩

/-- Folding `accumStep` from an already-initialized accumulator pair adds the
remaining shards' contribution sums. -/
theorem foldl_accumStep_some (shards : List (FitShard w mo))
    (hh : Matrix (Fin w) (Fin w) ℚ) (hy : Matrix (Fin w) (Fin mo) ℚ) :
    shards.foldl accumStep (some (hh, hy))
      = some (hh + (shards.map shardHH).sum, hy + (shards.map shardHY).sum) := by
  induction shards generalizing hh hy with
  | nil => simp
  | cons s t ih => simp [List.foldl_cons, accumStep, ih, add_assoc]

/-- On a nonempty shard list the accumulation loop produces exactly the sums
of the per-shard contributions. -/
theorem accumLoop_eq_sums (shards : List (FitShard w mo)) (hne : shards ≠ []) :
    accumLoop shards
      = some ((shards.map shardHH).sum, (shards.map shardHY).sum) := by
  match shards, hne with
  | s :: t, _ =>
    simp [accumLoop, List.foldl_cons, accumStep, foldl_accumStep_some]

/-- C3: after the accumulation loop over a nonempty shard list the
accumulators are exactly `HH = Σᵢ Hᵢᵗ·Hᵢ` and `HY = Σᵢ Hᵢᵗ·Yᵢ`, and
processing the same shards in any other order gives the same accumulators. -/
theorem accumLoop_sums_and_order_free (shards shards' : List (FitShard w mo))
    (hne : shards ≠ []) (hperm : shards.Perm shards') :
    accumLoop shards
      = some ((shards.map shardHH).sum, (shards.map shardHY).sum)
    ∧ accumLoop shards = accumLoop shards' := by
  have h1 := accumLoop_eq_sums shards hne
  have hne' : shards' ≠ [] := by
    intro h
    subst h
    exact hne hperm.eq_nil
  have h2 := accumLoop_eq_sums shards' hne'
  refine ⟨h1, ?_⟩
  rw [h1, h2, List.Perm.sum_eq (hperm.map shardHH),
    List.Perm.sum_eq (hperm.map shardHY)]

/-- Witness for the C3 theorem on two concrete one-row shards, swapped. -/
theorem accumLoop_sums_witness :
    (([FitShard.mk 1 !![(2 : ℚ)] !![3], FitShard.mk 1 !![5] !![7]]
        : List (FitShard 1 1)) ≠ [])
    ∧ accumLoop
        ([FitShard.mk 1 !![(2 : ℚ)] !![3], FitShard.mk 1 !![5] !![7]]
          : List (FitShard 1 1))
      = accumLoop
        ([FitShard.mk 1 !![(5 : ℚ)] !![7], FitShard.mk 1 !![2] !![3]]
          : List (FitShard 1 1)) :=
  ⟨List.cons_ne_nil _ _,
   (accumLoop_sums_and_order_free _ _ (List.cons_ne_nil _ _)
     (List.Perm.swap _ _ _)).2⟩

/-- A left fold that appends one block per element equals the initial list
followed by the mapped blocks. -/
theorem foldl_append_singleton {α β : Type _} (f : α → β) (l : List α)
    (init : List β) :
    l.foldl (fun acc a => acc ++ [f a]) init = init ++ l.map f := by
  induction l generalizing init with
  | nil => simp
  | cons a t ih => simp [List.foldl_cons, ih]

/-- Closed form of a design-matrix row: the bias entry, then the raw features
when configured, then the hidden-layer blocks in order. -/
theorem designRow_eq (cfg : ELMConfig nf) (x : Fin nf → ℚ) :
    designRow cfg x
      = 1 :: ((if cfg.include_original_features then (List.finRange nf).map x
            else [])
          ++ (cfg.hidden_layers.map fun hl => hiddenBlockRow hl x).flatten) := by
  unfold designRow hListRow
  rw [foldl_append_singleton]
  by_cases h : cfg.include_original_features <;> simp [h]

/-- The spec-modelled `transform` applies the same per-row rule as the
hidden-layer block built inside the fit/predict loops. -/
theorem transformRow_eq_hiddenBlockRow (hl : HiddenLayer nf) (x : Fin nf → ℚ) :
    transformRow hl x = hiddenBlockRow hl x := by
  cases h : hl.kind <;> simp [transformRow, hiddenBlockRow, h]

/-- Both predict modes build identical design-matrix rows. -/
theorem designRowArray_eq_designRow (cfg : ELMConfig nf) (x : Fin nf → ℚ) :
    designRowArray cfg x = designRow cfg x := by
  rw [designRow_eq]
  unfold designRowArray
  by_cases h : cfg.include_original_features <;>
    simp [h, transformRow_eq_hiddenBlockRow]

/-- C8: every design-matrix row is the concatenation of a bias 1, the raw
input exactly when the model includes original features, then one block per
hidden layer in order, where a pairwise layer contributes the pairwise
distances from the row to its reference points and any other layer
contributes its nonlinearity applied to the row times the transposed
projection. -/
theorem designRow_structure (cfg : ELMConfig nf) (x : Fin nf → ℚ) :
    designRow cfg x
      = 1 :: ((if cfg.include_original_features then (List.finRange nf).map x
            else [])
          ++ (cfg.hidden_layers.map fun hl => hiddenBlockRow hl x).flatten)
    ∧ ∀ hl : HiddenLayer nf,
        hiddenBlockRow hl x
          = if hl.kind = HiddenLayerKind.pairwise then
              (List.finRange hl.nh).map fun j => hl.metric x (hl.W j)
            else
              (List.finRange hl.nh).map fun j => hl.ufunc (∑ i, x i * hl.W j i) := by
  refine ⟨designRow_eq cfg x, fun hl => ?_⟩
  cases h : hl.kind <;> simp [hiddenBlockRow, h]

/-- C2: on a fitted model, predicting on data given as file shards and on the
same data given as one in-memory array produce the same rows in the same
order — both paths build the design matrix with the same column ordering and
hidden-layer rules and multiply by the same weight matrix. -/
theorem predict_modes_agree (model : FittedELM nf mo)
    (h : model.is_fitted = true) (shardList : List (List (Fin nf → ℚ))) :
    predictELM model (PredictInput.shards shardList)
      = predictELM model (PredictInput.array shardList.flatten) := by
  simp only [predictELM, h, if_true]
  congr 1
  simp [designRowArray_eq_designRow, List.map_flatten]

/-- Witness for the C2 theorem: a concrete fitted model with one linear
hidden layer, on two one-row shards. -/
theorem predict_modes_agree_witness :
    ((⟨⟨true, [⟨1, HiddenLayerKind.linearProjection, fun _ _ => 2,
          fun _ _ => 0, fun q => q + 1⟩]⟩,
        [fun _ => 1, fun _ => 2, fun _ => 3], true⟩ : FittedELM 1 1).is_fitted
       = true)
    ∧ predictELM
        (⟨⟨true, [⟨1, HiddenLayerKind.linearProjection, fun _ _ => 2,
            fun _ _ => 0, fun q => q + 1⟩]⟩,
          [fun _ => 1, fun _ => 2, fun _ => 3], true⟩ : FittedELM 1 1)
        (PredictInput.shards [[fun _ => 3], [fun _ => 4]])
      = predictELM
        (⟨⟨true, [⟨1, HiddenLayerKind.linearProjection, fun _ _ => 2,
            fun _ _ => 0, fun q => q + 1⟩]⟩,
          [fun _ => 1, fun _ => 2, fun _ => 3], true⟩ : FittedELM 1 1)
        (PredictInput.array
          ([[fun _ => 3], [fun _ => 4]] : List (List (Fin 1 → ℚ))).flatten) :=
  ⟨rfl, predict_modes_agree _ rfl _⟩

/-- The executable determinant/adjugate solver agrees with the inverse-matrix
solution of the linear system. -/
theorem solveSys_eq_inv_mul [Fintype n] [DecidableEq n] (A : Matrix n n ℚ)
    (Y : Matrix n mo ℚ) : solveSys A Y = A⁻¹ * Y := by
  simp only [solveSys, Matrix.inv_def, Ring.inverse_eq_inv, Matrix.smul_mul]

/-- Solving the zero-padded regularized system and keeping the first `d` rows
gives the solution of the unpadded regularized system, for any padding
amount, as long as the ridge term is nonzero and the unpadded system is
nonsingular. -/
theorem padded_solve_aux (p : Nat) (HH : Matrix (Fin d) (Fin d) ℚ)
    (HY : Matrix (Fin d) (Fin mo) ℚ) (alpha : ℚ) (halpha : alpha ≠ 0)
    (hdet : (regularized HH alpha).det ≠ 0) :
    truncateRows (solveSys (regularized (padHH HH p) alpha) (padHY HY p))
      = solveSys (regularized HH alpha) HY := by
  have hblock : regularized (padHH HH p) alpha
      = Matrix.fromBlocks (regularized HH alpha) 0 0
          (alpha • (1 : Matrix (Fin p) (Fin p) ℚ)) := by
    rw [regularized, padHH, ← Matrix.fromBlocks_one, Matrix.fromBlocks_smul,
      Matrix.fromBlocks_add]
    simp [regularized]
  have hAunit : IsUnit (regularized HH alpha).det := isUnit_iff_ne_zero.mpr hdet
  have hDunit : IsUnit (alpha • (1 : Matrix (Fin p) (Fin p) ℚ)).det := by
    rw [Matrix.det_smul, Matrix.det_one, mul_one, Fintype.card_fin]
    exact isUnit_iff_ne_zero.mpr (pow_ne_zero p halpha)
  have hmul : Matrix.fromBlocks (regularized HH alpha) 0 0
        (alpha • (1 : Matrix (Fin p) (Fin p) ℚ))
      * Matrix.fromBlocks (regularized HH alpha)⁻¹ 0 0
        (alpha • (1 : Matrix (Fin p) (Fin p) ℚ))⁻¹ = 1 := by
    rw [Matrix.fromBlocks_multiply]
    simp [Matrix.mul_nonsing_inv _ hAunit, Matrix.mul_nonsing_inv _ hDunit,
      Matrix.fromBlocks_one]
  rw [solveSys_eq_inv_mul, solveSys_eq_inv_mul, hblock,
    Matrix.inv_eq_right_inv hmul, padHY, Matrix.fromBlocks_mul_fromRows]
  ext i j
  simp [truncateRows, Matrix.fromRows]

/-- C1: when the design-matrix width `d` is not a multiple of the batch size
`b`, solving the zero-padded regularized system (`HH` padded to
`[[HH, 0], [0, 0]]`, `HY` padded to `[[HY], [0]]`, then `alpha` times the
identity added) and truncating the solution to its first `d` rows yields the
same weight matrix as solving the unpadded regularized system directly
(stated over exact rational arithmetic, for a nonzero ridge term and a
nonsingular unpadded system). -/
theorem padding_preserves_solution (d b mo : Nat) (hb : 0 < b)
    (hdb : d % b ≠ 0) (HH : Matrix (Fin d) (Fin d) ℚ)
    (HY : Matrix (Fin d) (Fin mo) ℚ) (alpha : ℚ) (halpha : alpha ≠ 0)
    (hdet : (regularized HH alpha).det ≠ 0) :
    truncateRows (solveSys (regularized (padHH HH (paddingAmount d b)) alpha)
        (padHY HY (paddingAmount d b)))
      = solveSys (regularized HH alpha) HY :=
  padded_solve_aux (paddingAmount d b) HH HY alpha halpha hdet

/-- Witness for the C1 theorem at `d = 3`, `b = 2` (padding 1),
`alpha = 1`, `HH = 0`, `HY = 0`. -/
theorem padding_preserves_solution_witness :
    ((0 : Nat) < 2 ∧ (3 : Nat) % 2 ≠ 0 ∧ (1 : ℚ) ≠ 0
      ∧ (regularized (0 : Matrix (Fin 3) (Fin 3) ℚ) 1).det ≠ 0)
    ∧ truncateRows
        (solveSys (regularized (padHH (0 : Matrix (Fin 3) (Fin 3) ℚ)
            (paddingAmount 3 2)) 1)
          (padHY (0 : Matrix (Fin 3) (Fin 1) ℚ) (paddingAmount 3 2)))
      = solveSys (regularized (0 : Matrix (Fin 3) (Fin 3) ℚ) 1)
          (0 : Matrix (Fin 3) (Fin 1) ℚ) :=
  ⟨⟨by decide, by decide, one_ne_zero, by simp [regularized]⟩,
   padding_preserves_solution 3 2 1 (by decide) (by decide) _ _ 1 one_ne_zero
     (by simp [regularized])⟩

end LargeELM
